import Mathlib

/-!
Shallow embedding of the `async_job` crate (src/lib.rs): a cron-style job
runner with a `Job` trait, a process-wide `Tracker` of running job slots,
a `Runner` lifecycle (new / add / run / stop) and a background scheduling
loop.  Instants are modelled as integer nanosecond timestamps, durations as
integer nanosecond counts; `cron::Schedule::upcoming` is modelled as an
abstract function from the query instant to the sequence of future fire
times (only its first element is ever inspected, via `take 1`).
-/

namespace AsyncJob

/-- Mirrors `chrono::Duration::milliseconds(n)`: `n` milliseconds expressed
in nanoseconds, the resolution at which chrono durations compare. -/
def durationMilliseconds (n : Int) : Int := n * 1000000

/-- Abstract model of `cron::Schedule`: `upcoming now` is the sequence of
fire times strictly after `now` that `schedule.upcoming(Utc)` would yield
(the code only inspects its head, via `.take(1)`). -/
structure Schedule where
  upcoming : Int → List Int

/-- Model of an implementer of the `Job` trait: the three pure accessors
the runner consumes.  The async `handle` body is opaque to the scheduler
state, so it carries no data here. -/
structure Job where
  is_active : Bool
  allow_parallel_runs : Bool
  schedule : Option Schedule

/-- `Job::should_run` (src/lib.rs lines 115-131): active, has a schedule,
and the single upcoming fire time is at most 100ms away. -/
def shouldRun (j : Job) (now : Int) : Bool :=
  if j.is_active then
    match j.schedule with
    | some schedule =>
      ((schedule.upcoming now).take 1).any
        (fun item => decide (item - now ≤ durationMilliseconds 100))
    | none => false
  else false

/-- `Tracker::new` (src/lib.rs): empty vector of running job ids. -/
def trackerNew : List Nat := []

/-- `Tracker::running` (src/lib.rs lines 156-158): membership test. -/
def trackerRunning (t : List Nat) (id : Nat) : Bool := t.contains id

/-- `Tracker::start` (src/lib.rs lines 161-166): push `id` if absent, then
return the vector length.  Returns (new size, new state). -/
def trackerStart (t : List Nat) (id : Nat) : Nat × List Nat :=
  let t' := if trackerRunning t id then t else t.concat id
  (t'.length, t')

/-- `Tracker::stop` (src/lib.rs lines 169-177): if `id` is present, remove
it at its first position; return the vector length.
Returns (new size, new state). -/
def trackerStop (t : List Nat) (id : Nat) : Nat × List Nat :=
  let t' :=
    if trackerRunning t id then
      match t.findIdx? (fun r => r == id) with
      | some i => t.eraseIdx i
      | none => t
    else t
  (t'.length, t')

/-- Side effects `Runner::stop` can perform besides mutating its state. -/
inductive StopAction where
  | sendStop
  | abortTask
  deriving DecidableEq

/-- Model of the `Runner` struct (src/lib.rs lines 182-194).  The spawned
`JoinHandle` and the stop sender carry no observable data, so they are
modelled as `Option Unit`. -/
structure Runner where
  jobs : List Job
  thread : Option Unit
  running : Bool
  tx : Option Unit
  working : Bool

/-- `Runner::new` (src/lib.rs lines 205-213). -/
def Runner.new : Runner :=
  { jobs := [], thread := none, running := false, tx := none, working := false }

/-- `Runner::add` (src/lib.rs lines 217-222): push the job unless running. -/
def Runner.add (r : Runner) (j : Job) : Runner :=
  if !r.running then { r with jobs := r.jobs.concat j } else r

/-- `Runner::jobs_to_run` (src/lib.rs lines 225-227). -/
def Runner.jobs_to_run (r : Runner) : Nat := r.jobs.length

/-- `Runner::run` (src/lib.rs lines 230-245): no-op on an empty job list;
otherwise spawn the loop (fresh working flag, live handle and sender) and
return a started runner that owns no jobs. -/
def Runner.run (r : Runner) : Runner :=
  if r.jobs.isEmpty then r
  else
    { jobs := [], thread := some (), running := true, tx := some (),
      working := false }

/-- `Runner::stop` (src/lib.rs lines 248-261): early return when not
running; otherwise take the handle and, when present, send the stop signal
and abort the task.  `running` is left untouched by the source. -/
def Runner.stop (r : Runner) : Runner × List StopAction :=
  if !r.running then (r, [])
  else
    match r.thread with
    | some _ =>
      let acts :=
        (match r.tx with
         | some _ => [StopAction.sendStop]
         | none => []) ++ [StopAction.abortTask]
      ({ r with thread := none }, acts)
    | none => (r, [])

/-- `Runner::is_running` (src/lib.rs lines 264-266). -/
def Runner.is_running (r : Runner) : Bool := r.running

/-- `Runner::is_working` (src/lib.rs lines 269-271). -/
def Runner.is_working (r : Runner) : Bool := r.working

/-! The background scheduling loop spawned by `spawn` (src/lib.rs lines
274-341).  The loop body is sequential: for each job in order, it checks
eligibility, marks the tracker, stores `working := true`, awaits the
handler to completion, unmarks the tracker and stores the new `working`
value.  We record the observable actions as an event trace. -/

/-- Observable events of one handler dispatch inside the loop body. -/
inductive Event where
  | setWorking (b : Bool)
  | invokeStart (id : Nat)
  | invokeEnd (id : Nat)
  deriving DecidableEq

/-- The loop-visible shared state: the `TRACKER` singleton and the shared
`working` atomic flag. -/
structure LoopState where
  tracker : List Nat
  working : Bool
  deriving DecidableEq

/-- Eligibility test of the loop body (src/lib.rs lines 303-308):
`should_run` and (`allow_parallel_runs` or the tracker does not mark this
slot as running). -/
def eligible (now : Int) (id : Nat) (j : Job) (t : List Nat) : Bool :=
  shouldRun j now && (j.allow_parallel_runs || !(trackerRunning t id))

/-- One iteration of the inner `for` loop for job `j` at slot `id`
(src/lib.rs lines 302-337): when eligible, start the slot in the tracker,
set `working := true`, run the handler, stop the slot and store whether
the tracker is still non-empty. -/
def jobStep (now : Int) (id : Nat) (j : Job) (s : LoopState) :
    LoopState × List Event :=
  if eligible now id j s.tracker then
    let t1 := (trackerStart s.tracker id).2
    let stopRes := trackerStop t1 id
    let w2 := stopRes.1 != 0
    ({ tracker := stopRes.2, working := w2 },
     [Event.setWorking true, Event.invokeStart id, Event.invokeEnd id,
      Event.setWorking w2])
  else (s, [])

/-- The inner `for (id, job) in jobs.iter_mut().enumerate()` loop, with
`k` the slot index of the first job in `jobs`. -/
def runJobs (now : Int) (jobs : List Job) (k : Nat) (s : LoopState) :
    LoopState × List Event :=
  match jobs with
  | [] => (s, [])
  | j :: rest =>
    let p1 := jobStep now k j s
    let p2 := runJobs now rest (k + 1) p1.1
    (p2.1, p1.2 ++ p2.2)

/-- One full poll cycle over all jobs (slot indices start at 0). -/
def runCycle (now : Int) (jobs : List Job) (s : LoopState) :
    LoopState × List Event :=
  runJobs now jobs 0 s

/-- Finitely many poll cycles of the outer `loop`, one entry of `nows`
per cycle (a received stop signal merely truncates the list; the 100ms
sleep between cycles shows up as differing `now` values). -/
def runLoop (nows : List Int) (jobs : List Job) (s : LoopState) :
    LoopState × List Event :=
  match nows with
  | [] => (s, [])
  | n :: rest =>
    let p1 := runCycle n jobs s
    let p2 := runLoop rest jobs p1.1
    (p2.1, p1.2 ++ p2.2)

/-- `noOverlap id tr pending = true` states that, reading the trace `tr`
left to right starting with an invocation of job `id` outstanding iff
`pending`, job `id` is never invoked again while a prior invocation has
not yet ended. -/
def noOverlap (id : Nat) : List Event → Bool → Bool
  | [], _ => true
  | Event.invokeStart i :: rest, pending =>
    if i = id then !pending && noOverlap id rest true
    else noOverlap id rest pending
  | Event.invokeEnd i :: rest, pending =>
    if i = id then noOverlap id rest false
    else noOverlap id rest pending
  | Event.setWorking _ :: rest, pending => noOverlap id rest pending

/-- The two mutating operations of the `Tracker` API. -/
inductive TrackerOp where
  | start (id : Nat)
  | stop (id : Nat)

/-- Apply one `Tracker` mutation, keeping only the state. -/
def applyOp (t : List Nat) : TrackerOp → List Nat
  | TrackerOp.start id => (trackerStart t id).2
  | TrackerOp.stop id => (trackerStop t id).2

/-- Tracker state reached from `Tracker::new` by a sequence of `start` and
`stop` calls. -/
def applyOps (ops : List TrackerOp) : List Nat :=
  ops.foldl applyOp trackerNew

/-- A concrete schedule whose next fire time is the query instant itself. -/
def schedNow : Schedule := { upcoming := fun n => [n] }

/-- A concrete always-ready job used as witness input. -/
def jobReady : Job :=
  { is_active := true, allow_parallel_runs := false, schedule := some schedNow }

/-- A concrete schedule-less job used as witness input. -/
def jobIdle : Job :=
  { is_active := true, allow_parallel_runs := false, schedule := none }

/-! Helper lemmas about the tracker. -/

theorem trackerRunning_iff_mem (t : List Nat) (id : Nat) :
    trackerRunning t id = true ↔ id ∈ t := List.elem_iff

theorem trackerRunning_eq_false_iff (t : List Nat) (id : Nat) :
    trackerRunning t id = false ↔ id ∉ t := by
  rw [← trackerRunning_iff_mem]
  exact Bool.not_eq_true _ ▸ Iff.rfl

theorem trackerStop_snd (t : List Nat) (id : Nat) :
    (trackerStop t id).2 = t.erase id := by
  induction t with
  | nil => rfl
  | cons a t ih =>
    by_cases h : a = id
    · subst h
      simp [trackerStop, trackerRunning, List.findIdx?_cons]
    · by_cases hm : id ∈ t
      · have hc : trackerRunning (a :: t) id = true := by
          rw [trackerRunning_iff_mem]; exact List.mem_cons_of_mem a hm
        have hc' : trackerRunning t id = true := by
          rw [trackerRunning_iff_mem]; exact hm
        have hidx : ∃ i, t.findIdx? (fun r => r == id) = some i := by
          have : (t.findIdx? (fun r => r == id)).isSome = true := by
            rw [List.findIdx?_isSome]
            exact List.any_eq_true.mpr ⟨id, hm, by simp⟩
          exact Option.isSome_iff_exists.mp this
        obtain ⟨i, hi⟩ := hidx
        have ih' : t.eraseIdx i = t.erase id := by
          have := ih
          rw [trackerStop, hc'] at this
          simpa [hi] using this
        rw [trackerStop]
        simp only [hc, if_true, List.findIdx?_cons]
        have hbeq : (a == id) = false := by simpa using h
        simp [hbeq, List.findIdx?_succ, hi, List.eraseIdx_cons_succ, ih',
          List.erase_cons_tail, h]
      · have hc : trackerRunning (a :: t) id = false := by
          rw [trackerRunning_eq_false_iff]
          intro hmem
          rcases List.mem_cons.mp hmem with h1 | h1
          · exact h h1.symm
          · exact hm h1
        have hne : id ∉ a :: t := by
          rw [← trackerRunning_eq_false_iff]; exact hc
        rw [trackerStop]
        simp [hc, List.erase_of_not_mem hne]

theorem trackerStop_fst (t : List Nat) (id : Nat) :
    (trackerStop t id).1 = (trackerStop t id).2.length := rfl

theorem trackerStart_fst (t : List Nat) (id : Nat) :
    (trackerStart t id).1 = (trackerStart t id).2.length := rfl

theorem trackerStart_snd_nodup (t : List Nat) (id : Nat) (h : t.Nodup) :
    ((trackerStart t id).2).Nodup := by
  rw [trackerStart]
  by_cases hm : id ∈ t
  · simp [trackerRunning_iff_mem t id |>.mpr hm, h]
  · have hc : trackerRunning t id = false := by
      rw [trackerRunning_eq_false_iff]; exact hm
    simp [hc, List.concat_eq_append, List.nodup_append, h, hm]

theorem trackerStop_snd_nodup (t : List Nat) (id : Nat) (h : t.Nodup) :
    ((trackerStop t id).2).Nodup := by
  rw [trackerStop_snd]
  exact h.erase id

/-- C8: for every duplicate-free tracker state (the invariant of all states
reachable through the `Tracker` API) and every id, `Tracker::stop(id)`
leaves a tracker without `id` unchanged, is idempotent, returns the size of
the resulting set, leaves `running(id)` false, and removes nothing but
`id`. -/
theorem trackerStop_spec (t : List Nat) (id : Nat) (hnd : t.Nodup) :
    (id ∉ t → trackerStop t id = (t.length, t)) ∧
    (trackerStop (trackerStop t id).2 id).2 = (trackerStop t id).2 ∧
    (trackerStop t id).1 = (trackerStop t id).2.length ∧
    trackerRunning (trackerStop t id).2 id = false ∧
    (∀ j, j ≠ id → (j ∈ (trackerStop t id).2 ↔ j ∈ t)) := by
  have hsnd := trackerStop_snd t id
  have hout : id ∉ (trackerStop t id).2 := by
    rw [hsnd]
    intro hmem
    exact ((hnd.mem_erase_iff).mp hmem).1 rfl
  refine ⟨?_, ?_, trackerStop_fst t id, ?_, ?_⟩
  · intro hm
    have h2 : (trackerStop t id).2 = t := by
      rw [hsnd, List.erase_of_not_mem hm]
    have h1 : (trackerStop t id).1 = t.length := by
      rw [trackerStop_fst, h2]
    calc trackerStop t id = ((trackerStop t id).1, (trackerStop t id).2) := rfl
      _ = (t.length, t) := by rw [h1, h2]
  · rw [trackerStop_snd ((trackerStop t id).2) id, List.erase_of_not_mem hout]
  · rw [trackerRunning_eq_false_iff]; exact hout
  · intro j hj
    rw [hsnd]
    exact List.mem_erase_of_ne hj

/-- Witness for C8 at the concrete tracker `[1]` and id `0`. -/
theorem trackerStop_spec_witness :
    trackerStop [1] 0 = ([1].length, [1]) ∧
    trackerRunning (trackerStop [1] 0).2 0 = false :=
  ⟨(trackerStop_spec [1] 0 (by decide)).1 (by decide),
   (trackerStop_spec [1] 0 (by decide)).2.2.2.1⟩

theorem foldl_applyOp_nodup (ops : List TrackerOp) (t : List Nat)
    (h : t.Nodup) : (ops.foldl applyOp t).Nodup := by
  induction ops generalizing t with
  | nil => exact h
  | cons op rest ih =>
    rw [List.foldl_cons]
    refine ih (applyOp t op) ?_
    cases op with
    | start id => exact trackerStart_snd_nodup t id h
    | stop id => exact trackerStop_snd_nodup t id h

/-- C10: every tracker state reachable from `Tracker::new` through `start`
and `stop` calls is duplicate-free, so `running` is genuine set membership
and the sizes returned by `start` and `stop` are genuine set
cardinalities. -/
theorem tracker_reachable_invariant (ops : List TrackerOp) (id : Nat) :
    (applyOps ops).Nodup ∧
    (trackerRunning (applyOps ops) id = true ↔ id ∈ applyOps ops) ∧
    (trackerStart (applyOps ops) id).1 =
      ((trackerStart (applyOps ops) id).2).toFinset.card ∧
    (trackerStop (applyOps ops) id).1 =
      ((trackerStop (applyOps ops) id).2).toFinset.card := by
  have hnd : (applyOps ops).Nodup :=
    foldl_applyOp_nodup ops trackerNew List.nodup_nil
  refine ⟨hnd, trackerRunning_iff_mem _ id, ?_, ?_⟩
  · rw [trackerStart_fst,
      List.toFinset_card_of_nodup (trackerStart_snd_nodup _ id hnd)]
  · rw [trackerStop_fst,
      List.toFinset_card_of_nodup (trackerStop_snd_nodup _ id hnd)]

/-- C1: `should_run` is true iff the job is active, has a schedule, and the
schedule's single next fire time after `now` exists and is at most 100
milliseconds away; it is false for an inactive or schedule-less job or
when the next fire time is farther off. -/
theorem shouldRun_iff (j : Job) (now : Int) :
    shouldRun j now = true ↔
      j.is_active = true ∧
        ∃ s, j.schedule = some s ∧
          ∃ t, (s.upcoming now).head? = some t ∧
            t - now ≤ durationMilliseconds 100 := by
  unfold shouldRun
  by_cases ha : j.is_active
  · cases hs : j.schedule with
    | none => simp [ha, hs]
    | some s =>
      cases hu : s.upcoming now with
      | nil => simp [ha, hs, hu]
      | cons t rest => simp [ha, hs, hu, List.take_succ_cons]
  · simp [ha]

/-! Helper lemmas about the runner lifecycle. -/

theorem add_preserves_running (r : Runner) (j : Job) :
    (r.add j).running = r.running := by
  rw [Runner.add]
  split <;> rfl

theorem foldl_add_spec (l : List Job) (r : Runner) (h : r.running = false) :
    (l.foldl Runner.add r).jobs.length = r.jobs.length + l.length ∧
    (l.foldl Runner.add r).running = false := by
  induction l generalizing r with
  | nil => exact ⟨rfl, h⟩
  | cons j rest ih =>
    rw [List.foldl_cons]
    have hadd : r.add j = { r with jobs := r.jobs.concat j } := by
      rw [Runner.add, h]
      rfl
    have h2 : (r.add j).running = false := by rw [add_preserves_running]; exact h
    obtain ⟨hl, hr⟩ := ih (r.add j) h2
    refine ⟨?_, hr⟩
    rw [hl, hadd]
    simp [List.length_concat]
    omega

/-- C4: starting from `Runner::new`, `N` calls to `add` leave
`jobs_to_run() = N`, and a successful `run()` on a non-empty job list
returns a runner with `jobs_to_run() = 0`. -/
theorem jobs_to_run_spec :
    (∀ l : List Job, (l.foldl Runner.add Runner.new).jobs_to_run = l.length) ∧
    (∀ r : Runner, r.jobs ≠ [] → (r.run).jobs_to_run = 0) := by
  constructor
  · intro l
    have := (foldl_add_spec l Runner.new rfl).1
    simpa [Runner.jobs_to_run, Runner.new] using this
  · intro r h
    rw [Runner.run, if_neg (by simpa [List.isEmpty_iff] using h)]
    rfl

/-- Witness for C4: two adds then `run()`. -/
theorem jobs_to_run_spec_witness :
    (([jobReady, jobIdle].foldl Runner.add Runner.new).jobs_to_run = 2) ∧
    ((Runner.new.add jobReady).run).jobs_to_run = 0 :=
  ⟨jobs_to_run_spec.1 [jobReady, jobIdle],
   jobs_to_run_spec.2 (Runner.new.add jobReady)
     (by simp [Runner.new, Runner.add])⟩

/-- C5: `add` on a started runner is a no-op: the runner, hence its job
collection and observable job count, is unchanged. -/
theorem add_after_start_noop (r : Runner) (j : Job) (h : r.running = true) :
    r.add j = r ∧ (r.add j).jobs_to_run = r.jobs_to_run := by
  have : r.add j = r := by rw [Runner.add, h]; rfl
  exact ⟨this, by rw [this]⟩

/-- Witness for C5 on a concrete started runner. -/
theorem add_after_start_noop_witness :
    ((Runner.new.add jobReady).run).add jobIdle = (Runner.new.add jobReady).run ∧
    (((Runner.new.add jobReady).run).add jobIdle).jobs_to_run =
      ((Runner.new.add jobReady).run).jobs_to_run :=
  add_after_start_noop ((Runner.new.add jobReady).run) jobIdle rfl

/-- C6: `run()` on an empty job list returns the runner unchanged, so an
unstarted runner stays unstarted with `is_running() = false`. -/
theorem run_empty_noop (r : Runner) (h : r.jobs = []) :
    r.run = r ∧ (r.running = false → (r.run).is_running = false) := by
  have : r.run = r := by
    rw [Runner.run, if_pos (by simp [List.isEmpty_iff, h])]
  exact ⟨this, fun hr => by rw [this]; exact hr⟩

/-- Witness for C6 on the freshly constructed runner. -/
theorem run_empty_noop_witness :
    Runner.new.run = Runner.new ∧
    (Runner.new.running = false → (Runner.new.run).is_running = false) :=
  run_empty_noop Runner.new rfl

/-- C7: `stop()` on a non-running runner is a no-op performing no action,
and a second `stop()` right after a first one leaves the state unchanged
and performs no action (the task handle was already consumed). -/
theorem stop_idempotent (r : Runner) :
    (r.running = false → r.stop = (r, [])) ∧
    (r.stop.1).stop = (r.stop.1, []) := by
  constructor
  · intro h
    rw [Runner.stop, h]
    rfl
  · by_cases hr : r.running
    · cases ht : r.thread with
      | none =>
        have h1 : r.stop = (r, []) := by
          rw [Runner.stop, hr, ht]
          rfl
        rw [h1]
        simp only
        rw [Runner.stop, hr, ht]
        rfl
      | some u =>
        have h1 : r.stop.1 = { r with thread := none } := by
          rw [Runner.stop, hr, ht]
          rfl
        rw [h1, Runner.stop]
        simp only [hr]
        rfl
    · have hr' : r.running = false := Bool.not_eq_true _ ▸ hr
      have h1 : r.stop = (r, []) := by rw [Runner.stop, hr']; rfl
      rw [h1]
      simp only
      rw [h1]

/-- Witness for C7: stopping a never-started runner, and double-stopping a
started one. -/
theorem stop_idempotent_witness :
    Runner.new.stop = (Runner.new, []) ∧
    ((((Runner.new.add jobReady).run).stop.1).stop =
      (((Runner.new.add jobReady).run).stop.1, [])) :=
  ⟨(stop_idempotent Runner.new).1 rfl,
   (stop_idempotent ((Runner.new.add jobReady).run)).2⟩

/-- C2 (code divergence): on a concrete started runner, `stop()` never
resets `running`, so `is_running()` still reports true after `stop()`
returns. -/
theorem stop_leaves_running_true :
    ((Runner.new.add jobReady).run).is_running = true ∧
    ((((Runner.new.add jobReady).run).stop).1).is_running = true :=
  ⟨rfl, rfl⟩

/-! Helper lemmas about the scheduling loop trace. -/

theorem noOverlap_jobStep (idq : Nat) (now : Int) (k : Nat) (j : Job)
    (s : LoopState) (tail : List Event) :
    noOverlap idq ((jobStep now k j s).2 ++ tail) false =
      noOverlap idq tail false := by
  rw [jobStep]
  split
  · by_cases hk : k = idq
    · subst hk
      simp [noOverlap]
    · simp [noOverlap, hk]
  · rfl

theorem noOverlap_runJobs (idq : Nat) (now : Int) (jobs : List Job) (k : Nat)
    (s : LoopState) (tail : List Event) :
    noOverlap idq ((runJobs now jobs k s).2 ++ tail) false =
      noOverlap idq tail false := by
  induction jobs generalizing k s tail with
  | nil => rfl
  | cons j rest ih =>
    rw [runJobs]
    simp only [List.append_assoc]
    rw [noOverlap_jobStep, ih]

theorem noOverlap_runLoop (idq : Nat) (nows : List Int) (jobs : List Job)
    (s : LoopState) (tail : List Event) :
    noOverlap idq ((runLoop nows jobs s).2 ++ tail) false =
      noOverlap idq tail false := by
  induction nows generalizing s tail with
  | nil => rfl
  | cons n rest ih =>
    rw [runLoop]
    simp only [List.append_assoc]
    rw [runCycle, noOverlap_runJobs, ih]

/-- C3: over any number of poll cycles, the loop trace never starts an
invocation of a job slot while a prior invocation of that slot has not yet
ended (the loop awaits each handler to completion), and a handler is
dispatched only when `should_run` holds and the job either allows parallel
runs or its slot is not marked running in the tracker. -/
theorem loop_no_reentry :
    (∀ (nows : List Int) (jobs : List Job) (s : LoopState) (id : Nat),
      noOverlap id (runLoop nows jobs s).2 false = true) ∧
    (∀ (now : Int) (k : Nat) (j : Job) (s : LoopState),
      Event.invokeStart k ∈ (jobStep now k j s).2 →
        shouldRun j now = true ∧
          (j.allow_parallel_runs = true ∨
            trackerRunning s.tracker k = false)) := by
  constructor
  · intro nows jobs s id
    have := noOverlap_runLoop id nows jobs s []
    simpa using this
  · intro now k j s hmem
    rw [jobStep] at hmem
    by_cases he : eligible now k j s.tracker = true
    · have := he
      rw [eligible, Bool.and_eq_true] at this
      refine ⟨this.1, ?_⟩
      rcases Bool.or_eq_true _ _ |>.mp this.2 with h | h
      · exact Or.inl h
      · exact Or.inr (by simpa using h)
    · rw [if_neg he] at hmem
      simp at hmem

/-- Witness for C3's dispatch condition at a concrete eligible job. -/
theorem loop_no_reentry_witness :
    shouldRun jobReady 0 = true ∧
      (jobReady.allow_parallel_runs = true ∨
        trackerRunning ({ tracker := [], working := false } : LoopState).tracker 0 = false) :=
  loop_no_reentry.2 0 0 jobReady { tracker := [], working := false }
    (by decide)

/-- C9: on an eligible job, the loop body sets the working flag to true
before the handler's invocation, and after the handler ends it removes the
slot from the tracker and stores, as the working flag, whether the tracker
is still non-empty — so the flag ends false only when no slot remains
marked running. -/
theorem working_flag_spec (now : Int) (id : Nat) (j : Job) (s : LoopState)
    (h : eligible now id j s.tracker = true) :
    ∃ w,
      (jobStep now id j s).2 =
        [Event.setWorking true, Event.invokeStart id, Event.invokeEnd id,
          Event.setWorking w] ∧
      (jobStep now id j s).1.working = w ∧
      (jobStep now id j s).1.tracker =
        (trackerStop (trackerStart s.tracker id).2 id).2 ∧
      (w = true ↔ (jobStep now id j s).1.tracker ≠ []) := by
  refine ⟨(trackerStop (trackerStart s.tracker id).2 id).1 != 0, ?_, ?_, ?_, ?_⟩
  · rw [jobStep, if_pos h]
  · rw [jobStep, if_pos h]
  · rw [jobStep, if_pos h]
  · rw [jobStep, if_pos h]
    simp only [trackerStop_fst]
    constructor
    · intro hw hnil
      rw [hnil] at hw
      simp at hw
    · intro hne
      simpa [List.length_eq_zero] using hne

/-- Witness for C9 at a concrete eligible job on an empty tracker. -/
theorem working_flag_spec_witness :
    ∃ w,
      (jobStep 0 0 jobReady { tracker := [], working := false }).2 =
        [Event.setWorking true, Event.invokeStart 0, Event.invokeEnd 0,
          Event.setWorking w] ∧
      (jobStep 0 0 jobReady { tracker := [], working := false }).1.working = w ∧
      (jobStep 0 0 jobReady { tracker := [], working := false }).1.tracker =
        (trackerStop (trackerStart ({ tracker := [], working := false } : LoopState).tracker 0).2 0).2 ∧
      (w = true ↔
        (jobStep 0 0 jobReady { tracker := [], working := false }).1.tracker ≠ []) :=
  working_flag_spec 0 0 jobReady { tracker := [], working := false } (by decide)

end AsyncJob
